import Mathlib

/-
Verification development for the eSignature PDF-workflow utility
(single source file: main.py).

Modelling choices (shallow embedding):
- A filesystem path is a list of components (os.path.join appends a
  component; os.path.basename takes the last component).
- The filesystem is an association list from paths to file contents.
  Enumeration order of glob is the order of that list, matching the
  unspecified filesystem-enumeration order of the real system.
- A PDF file content is either malformed (PdfReader and
  IncrementalPdfFileWriter raise on it), truncated garbage left by an
  interrupted write, or a well-formed form-field mapping: an optional
  ordered dictionary from field names to field data, exactly the shape
  that reader.get_fields() yields (None, or a dict preserving insertion
  order).  A field carries its optional /FT type tag and its optional /V
  value entry; the value entry carries its Python truthiness and the
  optional /Name and /M strings the code reads from it.
- A tool function returns Except PdfErr alongside the updated
  filesystem: an .error value models a Python exception propagating out
  of the tool function uncaught, while ordinary returns model the
  string results.  Tool result strings are modelled by structured
  result values carrying exactly the data interpolated into them.
- The pyhanko writer is an opaque collaborator; appendSigField models
  its one used capability (append a signature field, failing on
  unparseable input).  Whether the final writer.write I/O succeeds is
  environmental, so add_signature_field takes it as an explicit boolean.
-/

namespace ESign

/-- A filesystem path as a list of components. -/
abbrev Path := List String

/-- Models os.path.join dir name for the joins this program performs. -/
def joinPath (dir : Path) (name : String) : Path := dir ++ [name]

/-- Models os.path.basename: the last path component. -/
def basename (p : Path) : String := p.getLastD ""

/-- The /V value entry of a form field: its Python truthiness and the two
optional entries the code reads from it. -/
structure SigValue where
  truthy : Bool
  name : Option String
  m : Option String
deriving DecidableEq, Repr

/-- One form field as returned by reader.get_fields(): optional /FT type
tag and optional /V value entry. -/
structure FieldData where
  ft : Option String
  v : Option SigValue
deriving DecidableEq, Repr

/-- The content of one file on disk. -/
inductive PdfContent where
  | malformed
  | truncatedData
  | wellFormed (fields : Option (List (String × FieldData)))
deriving DecidableEq, Repr

/-- Errors: each models a Python exception class raised by the libraries
the code calls. -/
inductive PdfErr where
  | fileNotFound
  | malformedPdf
  | writeFailure
deriving DecidableEq, Repr

/-- The filesystem: an association list from paths to contents. -/
structure FS where
  files : List (Path × PdfContent)
deriving DecidableEq, Repr

instance : Nonempty (Path × PdfContent) := ⟨([], .malformed)⟩

/-- First-match lookup in an association list of files. -/
def lookupList : List (Path × PdfContent) → Path → Option PdfContent
  | [], _ => none
  | (q, c) :: rest, p => if p = q then some c else lookupList rest p

/-- Remove the entries bound to a path. -/
def eraseList : List (Path × PdfContent) → Path → List (Path × PdfContent)
  | [], _ => []
  | e :: rest, p => if e.1 = p then eraseList rest p else e :: eraseList rest p

def FS.lookup (fs : FS) (p : Path) : Option PdfContent := lookupList fs.files p

/-- Models os.path.exists. -/
def FS.existsPath (fs : FS) (p : Path) : Bool := (fs.lookup p).isSome

/-- Models os.remove. -/
def FS.erase (fs : FS) (p : Path) : FS := ⟨eraseList fs.files p⟩

/-- Create or overwrite a file (open for writing). -/
def FS.setFile (fs : FS) (p : Path) (c : PdfContent) : FS :=
  ⟨(p, c) :: eraseList fs.files p⟩

/-- Models shutil.move: relocate the content bound to src to dst,
overwriting dst.  The code only ever moves paths it has just checked to
exist. -/
def FS.move (fs : FS) (src dst : Path) : FS :=
  match fs.lookup src with
  | none => fs
  | some c => (fs.erase src).setFile dst c

/-- Well-formed filesystem: each path bound at most once, as on a real
disk. -/
def FS.Wf (fs : FS) : Prop := (fs.files.map Prod.fst).Nodup

instance (fs : FS) : Decidable fs.Wf :=
  inferInstanceAs (Decidable (fs.files.map Prod.fst).Nodup)

/-- Does a filename match the *.pdf glob pattern. -/
def hasPdfExt (name : String) : Bool := ".pdf".data.isSuffixOf name.data

/-- Models glob.glob(os.path.join(dir, "*.pdf")): the bound paths lying
directly in dir whose filename has the .pdf extension, in enumeration
order. -/
def FS.glob (fs : FS) (dir : Path) : List Path :=
  (fs.files.map Prod.fst).filter (fun p => decide (p.dropLast = dir) && hasPdfExt (basename p))

/-- PDF_DOCUMENTS_DIR = "pdf_documents" (the intake folder). -/
def PDF_DOCUMENTS_DIR : Path := ["pdf_documents"]

/-- ORGANIZED_FOLDERS_DIR = "organized_pdfs". -/
def ORGANIZED_FOLDERS_DIR : Path := ["organized_pdfs"]

/-- The three state-named organized subfolders. -/
def stateFolders : List String := ["no_signature_fields", "unsigned_fields", "signed"]

/-- A path inside one organized subfolder. -/
def orgPath (s fn : String) : Path := joinPath (joinPath ORGANIZED_FOLDERS_DIR s) fn

/-- The possible_paths list built by find_file_in_organized_folders. -/
def candidate_paths (filename : String) : List Path :=
  [joinPath (joinPath ORGANIZED_FOLDERS_DIR "no_signature_fields") filename,
   joinPath (joinPath ORGANIZED_FOLDERS_DIR "unsigned_fields") filename,
   joinPath (joinPath ORGANIZED_FOLDERS_DIR "signed") filename,
   joinPath PDF_DOCUMENTS_DIR filename]

/-- find_file_in_organized_folders: probe the candidate paths in order,
return the first existing one, else None. -/
def find_file_in_organized_folders (fs : FS) (filename : String) : Option Path :=
  (candidate_paths filename).find? (fun p => fs.existsPath p)

/-- Python dict indexing fields[k]: the value bound to the first (only)
occurrence of key k. -/
def dictGet (fl : List (String × FieldData)) (k : String) : Option FieldData :=
  match fl.find? (fun kv => decide (kv.1 = k)) with
  | none => none
  | some kv => some kv.2

/-- The truthiness test on a field: slash-V in data and data[slash-V]. -/
def truthyV (fd : FieldData) : Bool :=
  match fd.v with
  | none => false
  | some d => d.truthy

/-- The sig_fields list comprehension: names of the fields whose /FT tag
equals /Sig, in mapping iteration order. -/
def sigNamesOf (fl : List (String × FieldData)) : List String :=
  (fl.filter (fun kv => decide (kv.2.ft = some "/Sig"))).map Prod.fst

/-- The pure classification core of analyze_signature_state, applied to
the result of reader.get_fields(). -/
def classify_fields (fields : Option (List (String × FieldData))) : String :=
  match fields with
  | none => "no_signature_fields"
  | some fl =>
    if fl = [] then "no_signature_fields"
    else
      match sigNamesOf fl with
      | [] => "no_signature_fields"
      | k :: _ =>
        match dictGet fl k with
        | some fd => if truthyV fd then "signed" else "unsigned_fields"
        | none => "no_signature_fields"

/-- analyze_signature_state: open the PDF with PdfReader (raising on a
missing or unparseable file) and classify its field mapping. -/
def analyze_signature_state (fs : FS) (pdf_path : Path) : Except PdfErr String :=
  match fs.lookup pdf_path with
  | none => .error .fileNotFound
  | some .malformed => .error .malformedPdf
  | some .truncatedData => .error .malformedPdf
  | some (.wellFormed fields) => .ok (classify_fields fields)

/-- Is the analysis of a path a signed verdict (total boolean form). -/
def isSignedAt (fs : FS) (p : Path) : Bool :=
  match analyze_signature_state fs p with
  | .ok st => decide (st = "signed")
  | .error _ => false

/-- analyze_pdf_signatures: the analysis tool, building its report
string. -/
def analyze_pdf_signatures (fs : FS) (path : Path) : Except PdfErr String :=
  match fs.lookup path with
  | none => .error .fileNotFound
  | some .malformed => .error .malformedPdf
  | some .truncatedData => .error .malformedPdf
  | some (.wellFormed fields) =>
    match fields with
    | none => .ok "No form fields found"
    | some fl =>
      if fl = [] then .ok "No form fields found"
      else
        match sigNamesOf fl with
        | [] => .ok "No signature fields found"
        | k :: ks =>
          let line1 := "Signature fields: " ++ String.intercalate ", " (k :: ks)
          match dictGet fl k with
          | none => .ok line1
          | some fd =>
            match fd.v with
            | some d =>
              if d.truthy then
                let info0 := "Field \x27" ++ k ++ "\x27:"
                let info1 := match d.name with
                  | some nm => info0 ++ " " ++ nm
                  | none => info0
                let info2 := match d.m with
                  | some ts => info1 ++ " (" ++ ts ++ ")"
                  | none => info1
                .ok (String.intercalate "\n" [line1, info2, "✓ 1 field(s) signed"])
              else .ok (String.intercalate "\n" [line1, "No fields are signed"])
            | none => .ok (String.intercalate "\n" [line1, "No fields are signed"])

/-- The resolution block duplicated at the top of both
organize_pdf_by_signature_state and add_signature_field: use the literal
path when it exists, otherwise search the candidate folders for the
basename. -/
def resolve (fs : FS) (p : Path) : Option Path :=
  if fs.existsPath p then some p
  else find_file_in_organized_folders fs (basename p)

/-- The result of the organize tool: the not-found error string, the
success string (carrying the data interpolated into it plus the
destination), or an uncaught exception. -/
inductive OrganizeResult where
  | notFoundErr (filename : String)
  | moved (destination : Path) (state : String) (filename : String)
  | raised (e : PdfErr)
deriving DecidableEq, Repr

/-- organize_pdf_by_signature_state: resolve, classify, move to
base_folder/state/filename. -/
def organize_pdf_by_signature_state (fs : FS) (file_path : Path)
    (base_folder : Option Path) : FS × OrganizeResult :=
  let base := base_folder.getD ORGANIZED_FOLDERS_DIR
  match resolve fs file_path with
  | none => (fs, .notFoundErr (basename file_path))
  | some fp =>
    match analyze_signature_state fs fp with
    | .error e => (fs, .raised e)
    | .ok state =>
      let filename := basename fp
      let destination := joinPath (joinPath base state) filename
      (fs.move fp destination, .moved destination state filename)

/-- The pyhanko capability used by add_signature_field: produce new
content with the hardcoded signature field appended, failing on content
that does not parse.  Geometry is not observable through the field
mapping the rest of the code reads, so only the appended field itself is
modelled. -/
def appendSigField (c : PdfContent) : Except PdfErr PdfContent :=
  match c with
  | .malformed => .error .malformedPdf
  | .truncatedData => .error .malformedPdf
  | .wellFormed fields =>
    .ok (.wellFormed (some ((fields.getD []) ++ [("Kevin\x27s Signature", ⟨some "/Sig", none⟩)])))

/-- The result of the add-signature-field tool. -/
inductive AddResult where
  | notFoundErr (filename : String)
  | ok (output_path : Path)
  | raised (e : PdfErr)
deriving DecidableEq, Repr

/-- add_signature_field: resolve the input, default the output path to
organized/unsigned_fields/basename, parse and append (raising before the
output is opened on failure), then open the output for writing -- which
already creates or truncates it -- and write; writeOk says whether that
final write I/O succeeds.  On success, remove the original when it
differs from the output path. -/
def add_signature_field (fs : FS) (input_path : Path) (output_path : Option Path)
    (writeOk : Bool) : FS × AddResult :=
  match resolve fs input_path with
  | none => (fs, .notFoundErr (basename input_path))
  | some ip =>
    let op := match output_path with
      | some o => o
      | none => joinPath (joinPath ORGANIZED_FOLDERS_DIR "unsigned_fields") (basename ip)
    match fs.lookup ip with
    | none => (fs, .raised .fileNotFound)
    | some c =>
      match appendSigField c with
      | .error e => (fs, .raised e)
      | .ok c2 =>
        let fs1 := fs.setFile op .truncatedData
        if writeOk then
          let fs2 := fs1.setFile op c2
          let fs3 := if ip ≠ op ∧ fs2.existsPath ip then fs2.erase ip else fs2
          (fs3, .ok op)
        else
          (fs1, .raised .writeFailure)

/-- The unsigned_fields folder the reconciliation scanner reads. -/
def UNSIGNED_DIR : Path := joinPath ORGANIZED_FOLDERS_DIR "unsigned_fields"

/-- The signed folder the reconciliation scanner promotes into. -/
def SIGNED_DIR : Path := joinPath ORGANIZED_FOLDERS_DIR "signed"

/-- The loop body of check_unsigned_folder_for_updates over the
pre-computed glob listing: classify each file; promote signed ones into
the signed folder; an analysis exception aborts the whole call with the
moves already performed kept. -/
def reconcileLoop : FS → List Path → FS × Except PdfErr (List String × List String)
  | fs, [] => (fs, .ok ([], []))
  | fs, p :: rest =>
    match analyze_signature_state fs p with
    | .error e => (fs, .error e)
    | .ok st =>
      if st = "signed" then
        let fn := basename p
        let dst := joinPath SIGNED_DIR fn
        let r := reconcileLoop (fs.move p dst) rest
        (r.1, match r.2 with
          | .error e => .error e
          | .ok (mv, rem) => .ok (fn :: mv, rem))
      else
        let r := reconcileLoop fs rest
        (r.1, match r.2 with
          | .error e => .error e
          | .ok (mv, rem) => .ok (mv, basename p :: rem))

/-- check_unsigned_folder_for_updates: glob the unsigned_fields folder
and run the promotion loop; the returned lists are the moved_files and
remaining_files lists the tool interpolates into its report string. -/
def check_unsigned_folder_for_updates (fs : FS) :
    FS × Except PdfErr (List String × List String) :=
  reconcileLoop fs (fs.glob UNSIGNED_DIR)

/- Concrete values used to exhibit counterexamples and to witness that
the hypotheses of the proved theorems are satisfiable. -/

/-- A signature field carrying a filled (truthy) value. -/
def fdSigned : FieldData := ⟨some "/Sig", some ⟨true, some "Alice", some "D:20240101"⟩⟩

/-- A signature field with no value entry. -/
def fdUnsigned : FieldData := ⟨some "/Sig", none⟩

/-- A plain text form field. -/
def fdText : FieldData := ⟨some "/Tx", none⟩

/-- A filesystem holding one unparseable PDF in the intake folder. -/
def exFsMal : FS := ⟨[(["pdf_documents", "bad.pdf"], .malformed)]⟩

/-- A filesystem holding one well-formed PDF with a single unsigned
signature field in the intake folder. -/
def exFs1 : FS := ⟨[(["pdf_documents", "doc.pdf"], .wellFormed (some [("S", fdUnsigned)]))]⟩

/-- A filesystem where the filename a.pdf already sits in the signed
folder while a second, field-less a.pdf sits in intake. -/
def exFsDup : FS :=
  ⟨[(["organized_pdfs", "signed", "a.pdf"], .wellFormed none),
    (["pdf_documents", "a.pdf"], .wellFormed none)]⟩

/-- A filesystem whose unsigned_fields folder holds one now-signed
document and one still-unsigned document. -/
def exFsRec : FS :=
  ⟨[(["organized_pdfs", "unsigned_fields", "a.pdf"], .wellFormed (some [("S", fdSigned)])),
    (["organized_pdfs", "unsigned_fields", "b.pdf"], .wellFormed (some [("S", fdUnsigned)]))]⟩

/-- The filesystem exFsRec after one reconciliation pass: a.pdf promoted
into the signed folder, b.pdf left in place. -/
def exFsRec2 : FS :=
  ⟨[(["organized_pdfs", "signed", "a.pdf"], .wellFormed (some [("S", fdSigned)])),
    (["organized_pdfs", "unsigned_fields", "b.pdf"], .wellFormed (some [("S", fdUnsigned)]))]⟩

/-- The signature-typed field names of an optional field mapping (empty
when the mapping is absent). -/
def sigListOf : Option (List (String × FieldData)) → List String
  | none => []
  | some fl => sigNamesOf fl

/-- A concrete field mapping with one filled signature field. -/
def exFields1 : Option (List (String × FieldData)) := some [("S", fdSigned)]

/-- A one-file filesystem holding exFields1. -/
def exFsC1 : FS := ⟨[(["f.pdf"], .wellFormed exFields1)]⟩

/-- The filesystem exFs1 after organizing doc.pdf into unsigned_fields. -/
def exFs1Moved : FS :=
  ⟨[(["organized_pdfs", "unsigned_fields", "doc.pdf"], .wellFormed (some [("S", fdUnsigned)]))]⟩

/-- The content of doc.pdf after the signature field is appended. -/
def exAppended : PdfContent :=
  .wellFormed (some [("S", fdUnsigned), ("Kevin\x27s Signature", ⟨some "/Sig", none⟩)])

/- Helper lemmas about the filesystem model. -/

theorem lookupList_eraseList (l : List (Path × PdfContent)) (p q : Path) :
    lookupList (eraseList l p) q = if q = p then none else lookupList l q := by
  induction l with
  | nil => simp [eraseList, lookupList]
  | cons e rest ih =>
    obtain ⟨a, c⟩ := e
    simp only [eraseList]
    by_cases hap : a = p
    · subst hap
      rw [if_pos rfl, ih]
      by_cases hq : q = a
      · simp [hq]
      · simp [lookupList, hq]
    · rw [if_neg hap]
      by_cases hq : q = a
      · subst hq
        simp [lookupList, hap]
      · simp [lookupList, hq, ih]

theorem FS.lookup_erase (fs : FS) (p q : Path) :
    (fs.erase p).lookup q = if q = p then none else fs.lookup q :=
  lookupList_eraseList fs.files p q

theorem FS.lookup_setFile (fs : FS) (p : Path) (c : PdfContent) (q : Path) :
    (fs.setFile p c).lookup q = if q = p then some c else fs.lookup q := by
  show lookupList ((p, c) :: eraseList fs.files p) q = _
  simp only [lookupList, lookupList_eraseList]
  by_cases hq : q = p <;> simp [hq, FS.lookup]

theorem FS.lookup_move_some (fs : FS) (src dst q : Path) (c : PdfContent)
    (h : fs.lookup src = some c) :
    (fs.move src dst).lookup q =
      if q = dst then some c else if q = src then none else fs.lookup q := by
  unfold FS.move
  rw [h]
  rw [FS.lookup_setFile, FS.lookup_erase]

theorem FS.lookup_move_other (fs : FS) (src dst q : Path)
    (h1 : q ≠ src) (h2 : q ≠ dst) :
    (fs.move src dst).lookup q = fs.lookup q := by
  unfold FS.move
  cases hc : fs.lookup src with
  | none => rfl
  | some c => rw [FS.lookup_setFile, FS.lookup_erase, if_neg h2, if_neg h1]

theorem mem_keys_iff (l : List (Path × PdfContent)) (q : Path) :
    q ∈ l.map Prod.fst ↔ lookupList l q ≠ none := by
  induction l with
  | nil => simp [lookupList]
  | cons e rest ih =>
    obtain ⟨a, c⟩ := e
    by_cases hq : q = a
    · subst hq; simp [lookupList]
    · simp [lookupList, hq, ih]

theorem FS.mem_glob (fs : FS) (dir : Path) (q : Path) :
    q ∈ fs.glob dir ↔
      fs.lookup q ≠ none ∧ q.dropLast = dir ∧ hasPdfExt (basename q) = true := by
  unfold FS.glob
  rw [List.mem_filter, mem_keys_iff]
  simp only [Bool.and_eq_true, decide_eq_true_eq]
  show (_ ≠ _ ∧ _ ∧ _) ↔ _
  rw [FS.lookup]

theorem FS.glob_nodup (fs : FS) (dir : Path) (h : fs.Wf) : (fs.glob dir).Nodup :=
  List.Nodup.filter _ h

theorem analyze_congr (fs1 fs2 : FS) (p q : Path) (h : fs1.lookup p = fs2.lookup q) :
    analyze_signature_state fs1 p = analyze_signature_state fs2 q := by
  unfold analyze_signature_state
  rw [h]

theorem analyze_ok_lookup (fs : FS) (p : Path) (st : String)
    (h : analyze_signature_state fs p = .ok st) :
    ∃ fields, fs.lookup p = some (.wellFormed fields) ∧ st = classify_fields fields := by
  unfold analyze_signature_state at h
  cases hl : fs.lookup p with
  | none => rw [hl] at h; cases h
  | some c =>
    cases c with
    | malformed => rw [hl] at h; cases h
    | truncatedData => rw [hl] at h; cases h
    | wellFormed fields =>
      rw [hl] at h
      exact ⟨fields, rfl, (Except.ok.inj h).symm⟩

theorem isSignedAt_true_iff (fs : FS) (p : Path) :
    isSignedAt fs p = true ↔ analyze_signature_state fs p = .ok "signed" := by
  unfold isSignedAt
  cases h : analyze_signature_state fs p with
  | ok st => simp
  | error e => simp

theorem dropLast_joinPath (dir : Path) (s : String) : (joinPath dir s).dropLast = dir := by
  simp [joinPath]

theorem basename_joinPath (dir : Path) (s : String) : basename (joinPath dir s) = s := by
  simp [basename, joinPath]

theorem path_eq_joinPath (dir : Path) (p : Path) (h1 : p.dropLast = dir) (h2 : p ≠ []) :
    p = joinPath dir (basename p) := by
  subst h1
  unfold joinPath basename
  rw [List.getLastD_eq_getLast? "" p, List.getLast?_eq_getLast p h2]
  exact (List.dropLast_append_getLast h2).symm

theorem dictGet_isSome_of_mem (fl : List (String × FieldData)) (kv : String × FieldData)
    (h : kv ∈ fl) : ∃ fd, dictGet fl kv.1 = some fd := by
  unfold dictGet
  cases hf : fl.find? (fun x => decide (x.1 = kv.1)) with
  | some x => exact ⟨x.2, rfl⟩
  | none =>
    exfalso
    have := List.find?_eq_none.mp hf kv h
    simp at this

/- Lemmas about classification and the two resolving tools. -/

theorem classify_fields_cons (fl : List (String × FieldData)) (k : String)
    (ks : List String) (fd : FieldData)
    (hsn : sigNamesOf fl = k :: ks) (hfd : dictGet fl k = some fd) :
    classify_fields (some fl) = if truthyV fd then "signed" else "unsigned_fields" := by
  have hfl : fl ≠ [] := by
    intro hnil
    rw [hnil] at hsn
    simp [sigNamesOf] at hsn
  unfold classify_fields
  dsimp only
  rw [if_neg hfl, hsn]
  dsimp only
  rw [hfd]

theorem classify_fields_range (fields : Option (List (String × FieldData))) :
    classify_fields fields = "no_signature_fields"
      ∨ classify_fields fields = "unsigned_fields"
      ∨ classify_fields fields = "signed" := by
  rcases fields with _ | fl
  · exact Or.inl rfl
  · unfold classify_fields
    dsimp only
    by_cases hfl : fl = []
    · rw [if_pos hfl]
      exact Or.inl rfl
    · rw [if_neg hfl]
      cases hsn : sigNamesOf fl with
      | nil => exact Or.inl rfl
      | cons k ks =>
        dsimp only
        cases hd : dictGet fl k with
        | none => exact Or.inl rfl
        | some fd =>
          dsimp only
          by_cases ht : truthyV fd
          · rw [if_pos ht]
            exact Or.inr (Or.inr rfl)
          · rw [if_neg ht]
            exact Or.inr (Or.inl rfl)

theorem organize_resolve_none (fs : FS) (fp : Path) (b : Option Path)
    (h : resolve fs fp = none) :
    organize_pdf_by_signature_state fs fp b = (fs, .notFoundErr (basename fp)) := by
  unfold organize_pdf_by_signature_state
  rw [h]

theorem organize_resolve_error (fs : FS) (fp : Path) (b : Option Path) (rp : Path) (e : PdfErr)
    (h1 : resolve fs fp = some rp) (h2 : analyze_signature_state fs rp = .error e) :
    organize_pdf_by_signature_state fs fp b = (fs, .raised e) := by
  unfold organize_pdf_by_signature_state
  rw [h1]
  dsimp only
  rw [h2]

theorem organize_resolve_ok (fs : FS) (fp : Path) (b : Option Path) (rp : Path) (st : String)
    (h1 : resolve fs fp = some rp) (h2 : analyze_signature_state fs rp = .ok st) :
    organize_pdf_by_signature_state fs fp b =
      (fs.move rp (joinPath (joinPath (b.getD ORGANIZED_FOLDERS_DIR) st) (basename rp)),
       .moved (joinPath (joinPath (b.getD ORGANIZED_FOLDERS_DIR) st) (basename rp))
         st (basename rp)) := by
  unfold organize_pdf_by_signature_state
  rw [h1]
  dsimp only
  rw [h2]

theorem organize_moved_inv (fs : FS) (fp : Path) (b : Option Path) (fs2 : FS)
    (d : Path) (st fn : String)
    (h : organize_pdf_by_signature_state fs fp b = (fs2, .moved d st fn)) :
    ∃ rp, resolve fs fp = some rp
      ∧ analyze_signature_state fs rp = .ok st
      ∧ fn = basename rp
      ∧ d = joinPath (joinPath (b.getD ORGANIZED_FOLDERS_DIR) st) (basename rp)
      ∧ fs2 = fs.move rp d := by
  cases hres : resolve fs fp with
  | none =>
    rw [organize_resolve_none fs fp b hres, Prod.mk.injEq] at h
    exact absurd h.2 (by simp)
  | some rp =>
    cases ha : analyze_signature_state fs rp with
    | error e =>
      rw [organize_resolve_error fs fp b rp e hres ha, Prod.mk.injEq] at h
      exact absurd h.2 (by simp)
    | ok st2 =>
      rw [organize_resolve_ok fs fp b rp st2 hres ha, Prod.mk.injEq] at h
      obtain ⟨hA, hB⟩ := h
      rw [OrganizeResult.moved.injEq] at hB
      obtain ⟨hd2, hst2, hfn2⟩ := hB
      subst hst2
      refine ⟨rp, rfl, ha, hfn2.symm, ?_, ?_⟩
      · rw [← hd2]
      · rw [← hA, hd2]

theorem add_resolve_none (fs : FS) (p : Path) (op : Option Path) (w : Bool)
    (h : resolve fs p = none) :
    add_signature_field fs p op w = (fs, .notFoundErr (basename p)) := by
  unfold add_signature_field
  rw [h]

theorem add_resolve_congr (fs : FS) (p1 p2 rp : Path) (op : Option Path) (w : Bool)
    (h1 : resolve fs p1 = some rp) (h2 : resolve fs p2 = some rp) :
    add_signature_field fs p1 op w = add_signature_field fs p2 op w := by
  unfold add_signature_field
  rw [h1, h2]


theorem add_append_ok_eq (fs : FS) (ip rp : Path) (c c2 : PdfContent)
    (hres : resolve fs ip = some rp) (hc : fs.lookup rp = some c)
    (hap : appendSigField c = .ok c2) :
    add_signature_field fs ip none true =
      (let op := joinPath (joinPath ORGANIZED_FOLDERS_DIR "unsigned_fields") (basename rp)
       let fs2 := (fs.setFile op .truncatedData).setFile op c2
       (if rp ≠ op ∧ fs2.existsPath rp then fs2.erase rp else fs2, .ok op)) := by
  unfold add_signature_field
  rw [hres]
  dsimp only
  rw [hc]
  dsimp only
  rw [hap]
  rfl

/- Lemmas about the reconciliation loop. -/

theorem unsigned_ne_signed : UNSIGNED_DIR ≠ SIGNED_DIR := by decide

/-- Paths outside the scanned listing and outside the signed folder are
untouched by the loop, whether it completes or aborts. -/
theorem reconcileLoop_fst_untouched (q : Path) (h2 : q.dropLast ≠ SIGNED_DIR) :
    ∀ (ps : List Path) (fs : FS), q ∉ ps →
      ((reconcileLoop fs ps).1).lookup q = fs.lookup q := by
  intro ps
  induction ps with
  | nil => intro fs _; rfl
  | cons p rest ih =>
    intro fs h1
    have hqp : q ≠ p := fun h => h1 (h ▸ List.mem_cons_self p rest)
    have hqrest : q ∉ rest := fun h => h1 (List.mem_cons_of_mem _ h)
    cases ha : analyze_signature_state fs p with
    | error e => simp only [reconcileLoop, ha]
    | ok st =>
      by_cases hst : st = "signed"
      · have hqdst : q ≠ joinPath SIGNED_DIR (basename p) := by
          intro h
          exact h2 (by rw [h, dropLast_joinPath])
        simp only [reconcileLoop, ha, if_pos hst]
        rw [ih (fs.move p (joinPath SIGNED_DIR (basename p))) hqrest]
        exact FS.lookup_move_other fs p _ q hqp hqdst
      · simp only [reconcileLoop, ha, if_neg hst]
        exact ih fs hqrest

/-- A pass over files that all classify to a non-signed verdict moves
nothing and records every file as still pending. -/
theorem reconcileLoop_all_pending :
    ∀ (ps : List Path) (fs : FS),
      (∀ p ∈ ps, ∃ st, analyze_signature_state fs p = .ok st ∧ st ≠ "signed") →
      reconcileLoop fs ps = (fs, .ok ([], ps.map basename)) := by
  intro ps
  induction ps with
  | nil => intro fs _; rfl
  | cons p rest ih =>
    intro fs h
    obtain ⟨st, hst, hne⟩ := h p (List.mem_cons_self p rest)
    simp only [reconcileLoop, hst, if_neg hne]
    rw [ih fs (fun x hx => h x (List.mem_cons_of_mem _ hx))]
    rfl

/-- Full characterisation of a completed reconciliation pass over a
duplicate-free listing of unsigned-folder paths: every listed file was
analysed, the promoted and pending name lists are the signed and
non-signed sublists in order, unlisted unsigned-folder paths are
untouched, promoted paths are gone and pending paths keep their
content. -/
theorem reconcileLoop_ok_spec :
    ∀ (ps : List Path) (fs fs2 : FS) (mv rem : List String),
      (∀ p ∈ ps, p.dropLast = UNSIGNED_DIR) → ps.Nodup →
      reconcileLoop fs ps = (fs2, .ok (mv, rem)) →
      (∀ p ∈ ps, ∃ st, analyze_signature_state fs p = .ok st)
      ∧ mv = (ps.filter (fun p => isSignedAt fs p)).map basename
      ∧ rem = (ps.filter (fun p => ! isSignedAt fs p)).map basename
      ∧ (∀ q, q.dropLast = UNSIGNED_DIR → q ∉ ps → fs2.lookup q = fs.lookup q)
      ∧ (∀ p ∈ ps, isSignedAt fs p = true → fs2.lookup p = none)
      ∧ (∀ p ∈ ps, isSignedAt fs p = false → fs2.lookup p = fs.lookup p) := by
  intro ps
  induction ps with
  | nil =>
    intro fs fs2 mv rem _ _ h
    obtain ⟨h1, h2⟩ : fs = fs2 ∧ (⟨[], []⟩ : List String × List String) = (mv, rem) := by
      have := h
      simp only [reconcileLoop, Prod.mk.injEq] at this
      exact ⟨this.1, by rw [← (Except.ok.inj this.2)]⟩
    obtain ⟨hmv, hrem⟩ := Prod.mk.injEq .. ▸ h2
    subst h1
    refine ⟨by simp, by simp [← hmv], by simp [← hrem], fun q _ _ => rfl, by simp, by simp⟩
  | cons p rest ih =>
    intro fs fs2 mv rem hdir hnd h
    have hdp : p.dropLast = UNSIGNED_DIR := hdir p (List.mem_cons_self p rest)
    have hdrest : ∀ x ∈ rest, x.dropLast = UNSIGNED_DIR :=
      fun x hx => hdir x (List.mem_cons_of_mem _ hx)
    obtain ⟨hpnotin, hndrest⟩ := List.nodup_cons.mp hnd
    cases ha : analyze_signature_state fs p with
    | error e =>
      simp only [reconcileLoop, ha, Prod.mk.injEq] at h
      exact absurd h.2 (by simp)
    | ok st =>
      by_cases hst : st = "signed"
      · -- promoted branch
        have hsp : isSignedAt fs p = true := by
          unfold isSignedAt; rw [ha]; simp [hst]
        have hpdst : p ≠ joinPath SIGNED_DIR (basename p) := by
          intro heq
          have := hdp
          rw [heq, dropLast_joinPath] at this
          exact unsigned_ne_signed this.symm
        obtain ⟨cf, hcf, -⟩ := analyze_ok_lookup fs p st ha
        simp only [reconcileLoop, ha, if_pos hst] at h
        cases hr : reconcileLoop (fs.move p (joinPath SIGNED_DIR (basename p))) rest with
        | mk fs1 res =>
          rw [hr] at h
          cases res with
          | error e => simp only [Prod.mk.injEq] at h; exact absurd h.2 (by simp)
          | ok pr =>
            obtain ⟨mv0, rem0⟩ := pr
            have h9 : (fs1, Except.ok (basename p :: mv0, rem0)) = (fs2, Except.ok (mv, rem)) := h
            rw [Prod.mk.injEq] at h9
            obtain ⟨hfs2, hB⟩ := h9
            have hB2 := Except.ok.inj hB
            rw [Prod.mk.injEq] at hB2
            obtain ⟨hmv, hrem⟩ := hB2
            subst hfs2
            subst hmv
            subst hrem
            have hmove : ∀ x ∈ rest, (fs.move p (joinPath SIGNED_DIR (basename p))).lookup x = fs.lookup x := by
              intro x hx
              have hxp : x ≠ p := fun hh => hpnotin (hh ▸ hx)
              have hxdst : x ≠ joinPath SIGNED_DIR (basename p) := by
                intro hh
                have := hdrest x hx
                rw [hh, dropLast_joinPath] at this
                exact unsigned_ne_signed this.symm
              exact FS.lookup_move_other fs p _ x hxp hxdst
            have hana : ∀ x ∈ rest,
                analyze_signature_state (fs.move p (joinPath SIGNED_DIR (basename p))) x
                  = analyze_signature_state fs x :=
              fun x hx => analyze_congr _ _ _ _ (hmove x hx)
            have hsig : ∀ x ∈ rest,
                isSignedAt (fs.move p (joinPath SIGNED_DIR (basename p))) x = isSignedAt fs x := by
              intro x hx
              unfold isSignedAt
              rw [hana x hx]
            obtain ⟨ih1, ih2, ih3, ih4, ih5, ih6⟩ :=
              ih _ _ mv0 rem0 hdrest hndrest hr
            refine ⟨?_, ?_, ?_, ?_, ?_, ?_⟩
            · intro x hx
              rcases List.mem_cons.mp hx with hxe | hxm
              · exact ⟨st, hxe ▸ ha⟩
              · obtain ⟨st2, hst2⟩ := ih1 x hxm
                exact ⟨st2, by rw [← hana x hxm]; exact hst2⟩
            · rw [List.filter_cons_of_pos hsp, List.map_cons, ih2, List.filter_congr hsig]
            · rw [List.filter_cons_of_neg (by simp [hsp]), ih3,
                List.filter_congr (fun x hx => by rw [hsig x hx])]
            · intro q hq hqn
              have hqp : q ≠ p := fun hh => hqn (hh ▸ List.mem_cons_self p rest)
              have hqrest : q ∉ rest := fun hh => hqn (List.mem_cons_of_mem _ hh)
              have hqdst : q ≠ joinPath SIGNED_DIR (basename p) := by
                intro hh
                rw [hh, dropLast_joinPath] at hq
                exact unsigned_ne_signed hq.symm
              rw [ih4 q hq hqrest]
              exact FS.lookup_move_other fs p _ q hqp hqdst
            · intro x hx hs
              rcases List.mem_cons.mp hx with hxe | hxm
              · subst hxe
                rw [ih4 x hdp hpnotin, FS.lookup_move_some fs x _ x (.wellFormed cf) hcf,
                  if_neg hpdst, if_pos rfl]
              · exact ih5 x hxm (by rw [hsig x hxm]; exact hs)
            · intro x hx hs
              rcases List.mem_cons.mp hx with hxe | hxm
              · subst hxe
                rw [hsp] at hs
                cases hs
              · rw [ih6 x hxm (by rw [hsig x hxm]; exact hs)]
                exact hmove x hxm
      · -- still-pending branch
        have hsp : isSignedAt fs p = false := by
          unfold isSignedAt; rw [ha]; simp [hst]
        simp only [reconcileLoop, ha, if_neg hst] at h
        cases hr : reconcileLoop fs rest with
        | mk fs1 res =>
          rw [hr] at h
          cases res with
          | error e => simp only [Prod.mk.injEq] at h; exact absurd h.2 (by simp)
          | ok pr =>
            obtain ⟨mv0, rem0⟩ := pr
            have h9 : (fs1, Except.ok (mv0, basename p :: rem0)) = (fs2, Except.ok (mv, rem)) := h
            rw [Prod.mk.injEq] at h9
            obtain ⟨hfs2, hB⟩ := h9
            have hB2 := Except.ok.inj hB
            rw [Prod.mk.injEq] at hB2
            obtain ⟨hmv, hrem⟩ := hB2
            subst hfs2
            subst hmv
            subst hrem
            obtain ⟨ih1, ih2, ih3, ih4, ih5, ih6⟩ :=
              ih _ _ mv0 rem0 hdrest hndrest hr
            refine ⟨?_, ?_, ?_, ?_, ?_, ?_⟩
            · intro x hx
              rcases List.mem_cons.mp hx with hxe | hxm
              · exact ⟨st, hxe ▸ ha⟩
              · exact ih1 x hxm
            · rw [List.filter_cons_of_neg (by simp [hsp])]
              exact ih2
            · rw [List.filter_cons_of_pos (by simp [hsp]), List.map_cons, ih3]
            · intro q hq hqn
              exact ih4 q hq (fun hh => hqn (List.mem_cons_of_mem _ hh))
            · intro x hx hs
              rcases List.mem_cons.mp hx with hxe | hxm
              · subst hxe
                rw [hsp] at hs
                cases hs
              · exact ih5 x hxm hs
            · intro x hx hs
              rcases List.mem_cons.mp hx with hxe | hxm
              · subst hxe
                exact ih4 x hdp hpnotin
              · exact ih6 x hxm hs

/- Claim theorems. -/

/-- Claim C1: classification is a pure, deterministic function of the
field mapping and obeys the trichotomy: no_signature_fields exactly when
the mapping is absent, empty, or has no signature-typed field; otherwise
signed or unsigned_fields according to whether the first signature field
in mapping iteration order has a present, non-empty value entry; and
analyze_signature_state returns exactly this classification for any file
holding that mapping, independent of the rest of the filesystem. -/
theorem classify_trichotomy (fields : Option (List (String × FieldData))) :
    ((sigListOf fields = [] ∧ classify_fields fields = "no_signature_fields")
      ∨ (∃ fl k ks fd, fields = some fl ∧ sigNamesOf fl = k :: ks
          ∧ dictGet fl k = some fd
          ∧ classify_fields fields = (if truthyV fd then "signed" else "unsigned_fields")))
    ∧ (∀ (fs : FS) (p : Path), fs.lookup p = some (.wellFormed fields) →
        analyze_signature_state fs p = .ok (classify_fields fields)) := by
  constructor
  · rcases fields with _ | fl
    · exact Or.inl ⟨rfl, rfl⟩
    · cases hsn : sigNamesOf fl with
      | nil =>
        refine Or.inl ⟨hsn, ?_⟩
        unfold classify_fields
        dsimp only
        by_cases hfl : fl = []
        · rw [if_pos hfl]
        · rw [if_neg hfl, hsn]
      | cons k ks =>
        have hk : k ∈ (fl.filter (fun kv => decide (kv.2.ft = some "/Sig"))).map Prod.fst := by
          have h5 : sigNamesOf fl = k :: ks := hsn
          unfold sigNamesOf at h5
          rw [h5]
          exact List.mem_cons_self k ks
        obtain ⟨kv, hkvmem, hkv1⟩ := List.mem_map.mp hk
        have hkvfl : kv ∈ fl := List.mem_of_mem_filter hkvmem
        obtain ⟨fd, hfd⟩ := dictGet_isSome_of_mem fl kv hkvfl
        rw [hkv1] at hfd
        exact Or.inr ⟨fl, k, ks, fd, rfl, hsn, hfd, classify_fields_cons fl k ks fd hsn hfd⟩
  · intro fs p hp
    unfold analyze_signature_state
    rw [hp]

/-- Witness for classify_trichotomy: the purity conjunct applied to the
concrete mapping exFields1 on the one-file filesystem exFsC1. -/
theorem classify_trichotomy_witness :
    analyze_signature_state exFsC1 ["f.pdf"] = .ok (classify_fields exFields1) :=
  (classify_trichotomy exFields1).2 exFsC1 ["f.pdf"] rfl

/-- Claim C3: the locator probes the four candidate directories in the
fixed priority order no_signature_fields, unsigned_fields, signed, then
intake, returning the first existing path; it returns none exactly when
the filename exists in none of the four, and a filename present in
exactly one candidate directory resolves to that path. -/
theorem find_file_probe_order (fs : FS) (fn : String) :
    find_file_in_organized_folders fs fn =
      (if fs.existsPath (joinPath (joinPath ORGANIZED_FOLDERS_DIR "no_signature_fields") fn) = true
         then some (joinPath (joinPath ORGANIZED_FOLDERS_DIR "no_signature_fields") fn)
       else if fs.existsPath (joinPath (joinPath ORGANIZED_FOLDERS_DIR "unsigned_fields") fn) = true
         then some (joinPath (joinPath ORGANIZED_FOLDERS_DIR "unsigned_fields") fn)
       else if fs.existsPath (joinPath (joinPath ORGANIZED_FOLDERS_DIR "signed") fn) = true
         then some (joinPath (joinPath ORGANIZED_FOLDERS_DIR "signed") fn)
       else if fs.existsPath (joinPath PDF_DOCUMENTS_DIR fn) = true
         then some (joinPath PDF_DOCUMENTS_DIR fn)
       else none)
    ∧ (find_file_in_organized_folders fs fn = none ↔
        ∀ p ∈ candidate_paths fn, fs.existsPath p = false)
    ∧ (∀ p ∈ candidate_paths fn, fs.existsPath p = true →
        (∀ q ∈ candidate_paths fn, q ≠ p → fs.existsPath q = false) →
        find_file_in_organized_folders fs fn = some p) := by
  refine ⟨?_, ?_, ?_⟩
  · unfold find_file_in_organized_folders candidate_paths
    by_cases h0 : fs.existsPath (joinPath (joinPath ORGANIZED_FOLDERS_DIR "no_signature_fields") fn) = true <;>
      by_cases h1 : fs.existsPath (joinPath (joinPath ORGANIZED_FOLDERS_DIR "unsigned_fields") fn) = true <;>
        by_cases h2 : fs.existsPath (joinPath (joinPath ORGANIZED_FOLDERS_DIR "signed") fn) = true <;>
          by_cases h3 : fs.existsPath (joinPath PDF_DOCUMENTS_DIR fn) = true <;>
            simp [List.find?, h0, h1, h2, h3]
  · unfold find_file_in_organized_folders
    rw [List.find?_eq_none]
    constructor
    · intro h p hp
      have := h p hp
      simpa using this
    · intro h p hp
      simp [h p hp]
  · intro p hp hpt huniq
    cases hf : find_file_in_organized_folders fs fn with
    | none =>
      unfold find_file_in_organized_folders at hf
      rw [List.find?_eq_none] at hf
      exact absurd hpt (by simpa using hf p hp)
    | some q =>
      have hqmem : q ∈ candidate_paths fn := List.mem_of_find?_eq_some hf
      have hqt : fs.existsPath q = true := List.find?_some hf
      by_cases hqp : q = p
      · rw [hqp]
      · have hfalse := huniq q hqmem hqp
        rw [hfalse] at hqt
        simp at hqt

/-- Witness for find_file_probe_order: doc.pdf is present exactly in the
intake folder of exFs1 and the locator resolves it there. -/
theorem find_file_probe_order_witness :
    joinPath PDF_DOCUMENTS_DIR "doc.pdf" ∈ candidate_paths "doc.pdf"
    ∧ exFs1.existsPath (joinPath PDF_DOCUMENTS_DIR "doc.pdf") = true
    ∧ (∀ q ∈ candidate_paths "doc.pdf", q ≠ joinPath PDF_DOCUMENTS_DIR "doc.pdf" →
        exFs1.existsPath q = false)
    ∧ find_file_in_organized_folders exFs1 "doc.pdf"
        = some (joinPath PDF_DOCUMENTS_DIR "doc.pdf") :=
  ⟨by decide, by decide, by decide,
   (find_file_probe_order exFs1 "doc.pdf").2.2 _ (by decide) (by decide) (by decide)⟩

/-- Claim C4 counterexample: bad.pdf exists at its literal path, so it is
resolved, yet the call performs no move and returns no destination and
state: the parse failure escapes as an exception with the filesystem
unchanged. -/
theorem organize_malformed_cex :
    exFsMal.existsPath ["pdf_documents", "bad.pdf"] = true
    ∧ organize_pdf_by_signature_state exFsMal ["pdf_documents", "bad.pdf"] none
        = (exFsMal, .raised .malformedPdf) :=
  ⟨rfl, rfl⟩

/-- Claim C4 (amended): a call that fails to resolve returns the
not-found error with nothing moved; a resolved call whose document
parses performs exactly one move, to baseFolder/state/filename with the
base defaulting to organized_pdfs, and returns that destination and
state; a resolved call whose document does not parse raises with nothing
moved. -/
theorem organize_spec (fs : FS) (fp : Path) (b : Option Path) :
    (resolve fs fp = none →
      organize_pdf_by_signature_state fs fp b = (fs, .notFoundErr (basename fp)))
    ∧ (∀ rp e, resolve fs fp = some rp → analyze_signature_state fs rp = .error e →
        organize_pdf_by_signature_state fs fp b = (fs, .raised e))
    ∧ (∀ rp st, resolve fs fp = some rp → analyze_signature_state fs rp = .ok st →
        organize_pdf_by_signature_state fs fp b =
          (fs.move rp (joinPath (joinPath (b.getD ORGANIZED_FOLDERS_DIR) st) (basename rp)),
           .moved (joinPath (joinPath (b.getD ORGANIZED_FOLDERS_DIR) st) (basename rp))
             st (basename rp))) :=
  ⟨fun h => organize_resolve_none fs fp b h,
   fun rp e h1 h2 => organize_resolve_error fs fp b rp e h1 h2,
   fun rp st h1 h2 => organize_resolve_ok fs fp b rp st h1 h2⟩

/-- Witness for organize_spec: the parsing branch on the concrete
filesystem exFs1. -/
theorem organize_spec_witness :
    resolve exFs1 ["pdf_documents", "doc.pdf"] = some ["pdf_documents", "doc.pdf"]
    ∧ analyze_signature_state exFs1 ["pdf_documents", "doc.pdf"] = .ok "unsigned_fields"
    ∧ organize_pdf_by_signature_state exFs1 ["pdf_documents", "doc.pdf"] none =
        (exFs1.move ["pdf_documents", "doc.pdf"]
          (joinPath (joinPath ((none : Option Path).getD ORGANIZED_FOLDERS_DIR) "unsigned_fields")
            (basename ["pdf_documents", "doc.pdf"])),
         .moved (joinPath (joinPath ((none : Option Path).getD ORGANIZED_FOLDERS_DIR) "unsigned_fields")
            (basename ["pdf_documents", "doc.pdf"])) "unsigned_fields"
            (basename ["pdf_documents", "doc.pdf"])) :=
  ⟨rfl, rfl,
   (organize_spec exFs1 ["pdf_documents", "doc.pdf"] none).2.2 _ "unsigned_fields" rfl rfl⟩

/-- Claim C5 counterexample: an unparseable PDF handed to the analysis
tool makes the exception escape the tool function instead of being
converted into a failure message. -/
theorem analyze_tool_malformed_cex :
    analyze_pdf_signatures exFsMal ["pdf_documents", "bad.pdf"] = .error .malformedPdf :=
  rfl

/-- Claim C5 (amended): the only error the code itself converts into a
descriptive failure string is the failed file resolution in the organize
and add-signature-field tools; parse failures raise out of the tool
functions. -/
theorem error_handling_spec (fs : FS) (p : Path) (b : Option Path)
    (op : Option Path) (w : Bool)
    (h1 : fs.existsPath p = false)
    (h2 : find_file_in_organized_folders fs (basename p) = none) :
    organize_pdf_by_signature_state fs p b = (fs, .notFoundErr (basename p))
    ∧ add_signature_field fs p op w = (fs, .notFoundErr (basename p))
    ∧ (∀ q, fs.lookup q = some .malformed → analyze_pdf_signatures fs q = .error .malformedPdf) := by
  have hres : resolve fs p = none := by
    unfold resolve
    rw [h1]
    simp [h2]
  refine ⟨organize_resolve_none fs p b hres, add_resolve_none fs p op w hres, ?_⟩
  intro q hq
  unfold analyze_pdf_signatures
  rw [hq]

/-- Witness for error_handling_spec: a path that exists nowhere. -/
theorem error_handling_spec_witness :
    exFsMal.existsPath ["elsewhere", "nope.pdf"] = false
    ∧ find_file_in_organized_folders exFsMal (basename ["elsewhere", "nope.pdf"]) = none
    ∧ organize_pdf_by_signature_state exFsMal ["elsewhere", "nope.pdf"] none
        = (exFsMal, .notFoundErr (basename ["elsewhere", "nope.pdf"])) :=
  ⟨rfl, rfl,
   (error_handling_spec exFsMal ["elsewhere", "nope.pdf"] none none true rfl rfl).1⟩

/-- Claim C6 exhibited on the code: the destination file is opened for
writing before serialisation, so a failing write leaves a truncated file
at the default output path, a path that held no file before the call. -/
theorem add_signature_field_write_failure :
    (add_signature_field exFs1 ["pdf_documents", "doc.pdf"] none false).2
        = .raised .writeFailure
    ∧ ((add_signature_field exFs1 ["pdf_documents", "doc.pdf"] none false).1).lookup
        ["organized_pdfs", "unsigned_fields", "doc.pdf"] = some .truncatedData
    ∧ exFs1.lookup ["organized_pdfs", "unsigned_fields", "doc.pdf"] = none :=
  ⟨rfl, rfl, rfl⟩

/-- Claim C7: with no output path given and a successful write, the
mutated content lands at organized/unsigned_fields/original-filename,
and whenever that differs from the resolved input path the original file
is deleted afterwards: a move-with-mutation. -/
theorem add_signature_field_default_move (fs : FS) (ip rp : Path) (c c2 : PdfContent)
    (hres : resolve fs ip = some rp)
    (hc : fs.lookup rp = some c)
    (hap : appendSigField c = .ok c2) :
    (add_signature_field fs ip none true).2
        = .ok (joinPath (joinPath ORGANIZED_FOLDERS_DIR "unsigned_fields") (basename rp))
    ∧ ((add_signature_field fs ip none true).1).lookup
        (joinPath (joinPath ORGANIZED_FOLDERS_DIR "unsigned_fields") (basename rp)) = some c2
    ∧ (rp ≠ joinPath (joinPath ORGANIZED_FOLDERS_DIR "unsigned_fields") (basename rp) →
        ((add_signature_field fs ip none true).1).existsPath rp = false) := by
  rw [add_append_ok_eq fs ip rp c c2 hres hc hap]
  dsimp only
  set op := joinPath (joinPath ORGANIZED_FOLDERS_DIR "unsigned_fields") (basename rp) with hop
  set fs2 := (fs.setFile op .truncatedData).setFile op c2 with hfs2
  refine ⟨rfl, ?_, ?_⟩
  · by_cases hcnd : rp ≠ op ∧ fs2.existsPath rp = true
    · rw [if_pos hcnd, FS.lookup_erase, if_neg (Ne.symm hcnd.1), hfs2,
        FS.lookup_setFile, if_pos rfl]
    · rw [if_neg hcnd, hfs2, FS.lookup_setFile, if_pos rfl]
  · intro hne
    have hex : fs2.existsPath rp = true := by
      rw [FS.existsPath, hfs2, FS.lookup_setFile, if_neg hne, FS.lookup_setFile,
        if_neg hne, hc]
      rfl
    rw [if_pos ⟨hne, hex⟩, FS.existsPath, FS.lookup_erase, if_pos rfl]
    rfl

/-- Witness for add_signature_field_default_move on the concrete intake
file doc.pdf of exFs1. -/
theorem add_signature_field_default_move_witness :
    resolve exFs1 ["pdf_documents", "doc.pdf"] = some ["pdf_documents", "doc.pdf"]
    ∧ exFs1.lookup ["pdf_documents", "doc.pdf"] = some (.wellFormed (some [("S", fdUnsigned)]))
    ∧ appendSigField (.wellFormed (some [("S", fdUnsigned)])) = .ok exAppended
    ∧ (add_signature_field exFs1 ["pdf_documents", "doc.pdf"] none true).2
        = .ok (joinPath (joinPath ORGANIZED_FOLDERS_DIR "unsigned_fields")
            (basename ["pdf_documents", "doc.pdf"])) :=
  ⟨rfl, rfl, rfl,
   (add_signature_field_default_move exFs1 ["pdf_documents", "doc.pdf"]
      ["pdf_documents", "doc.pdf"] (.wellFormed (some [("S", fdUnsigned)])) exAppended
      rfl rfl rfl).1⟩

/-- Claim C8 counterexample: a successful organize call after which the
moved filename exists at the destination and also at another organized
path that already held a same-named file before the call. -/
theorem organize_duplicate_cex :
    (organize_pdf_by_signature_state exFsDup ["pdf_documents", "a.pdf"] none).2
      = .moved ["organized_pdfs", "no_signature_fields", "a.pdf"] "no_signature_fields" "a.pdf"
    ∧ ((organize_pdf_by_signature_state exFsDup ["pdf_documents", "a.pdf"] none).1).existsPath
        ["organized_pdfs", "no_signature_fields", "a.pdf"] = true
    ∧ ((organize_pdf_by_signature_state exFsDup ["pdf_documents", "a.pdf"] none).1).existsPath
        ["organized_pdfs", "signed", "a.pdf"] = true :=
  ⟨rfl, rfl, rfl⟩

/-- Claim C8 (amended): after a successful organize the file exists at
the destination, and provided the filename was not already present in
another organized folder before the call (other than at the resolved
source), it exists in no organized folder other than the destination:
the move is an exclusive relocation, never a copy. -/
theorem organize_move_exclusive (fs : FS) (fp : Path) (b : Option Path) (fs2 : FS)
    (d : Path) (st fn : String)
    (h : organize_pdf_by_signature_state fs fp b = (fs2, .moved d st fn))
    (hpre : ∀ s ∈ stateFolders, orgPath s fn ≠ d → resolve fs fp ≠ some (orgPath s fn) →
        fs.existsPath (orgPath s fn) = false) :
    fs2.existsPath d = true
    ∧ (∀ s ∈ stateFolders, orgPath s fn ≠ d → fs2.existsPath (orgPath s fn) = false) := by
  obtain ⟨rp, hres, ha, hfn, hd, hfs2⟩ := organize_moved_inv fs fp b fs2 d st fn h
  obtain ⟨fields, hlk, -⟩ := analyze_ok_lookup fs rp st ha
  subst hfs2
  constructor
  · rw [FS.existsPath, FS.lookup_move_some fs rp d d (.wellFormed fields) hlk, if_pos rfl]
    rfl
  · intro s hs hne
    by_cases hrp : orgPath s fn = rp
    · have hrd : rp ≠ d := fun hh => hne (hrp ▸ hh ▸ rfl)
      rw [FS.existsPath, hrp, FS.lookup_move_some fs rp d rp (.wellFormed fields) hlk,
        if_neg hrd, if_pos rfl]
      rfl
    · have hother := FS.lookup_move_other fs rp d (orgPath s fn) hrp hne
      rw [FS.existsPath, hother]
      exact hpre s hs hne (fun hh => hrp (Option.some.inj (hres ▸ hh)).symm)

/-- Witness for organize_move_exclusive on the concrete filesystem
exFs1, where no organized folder holds doc.pdf beforehand. -/
theorem organize_move_exclusive_witness :
    (∀ s ∈ stateFolders,
        orgPath s "doc.pdf" ≠ ["organized_pdfs", "unsigned_fields", "doc.pdf"] →
        resolve exFs1 ["pdf_documents", "doc.pdf"] ≠ some (orgPath s "doc.pdf") →
        exFs1.existsPath (orgPath s "doc.pdf") = false)
    ∧ exFs1Moved.existsPath ["organized_pdfs", "unsigned_fields", "doc.pdf"] = true :=
  ⟨by decide,
   (organize_move_exclusive exFs1 ["pdf_documents", "doc.pdf"] none exFs1Moved
      ["organized_pdfs", "unsigned_fields", "doc.pdf"] "unsigned_fields" "doc.pdf"
      rfl (by decide)).1⟩

/-- Claim C9: the classifier only ever returns one of the three strings
no_signature_fields, unsigned_fields, signed; every successful organize
destination is baseFolder/state/filename for such a state; and the
reconciliation scanner creates files only inside the signed folder. -/
theorem states_closed (fs : FS) (p : Path) (b : Option Path) (fs2 : FS)
    (d : Path) (st fn : String)
    (h : organize_pdf_by_signature_state fs p b = (fs2, .moved d st fn)) :
    (∀ fields, classify_fields fields = "no_signature_fields"
      ∨ classify_fields fields = "unsigned_fields"
      ∨ classify_fields fields = "signed")
    ∧ (st = "no_signature_fields" ∨ st = "unsigned_fields" ∨ st = "signed")
    ∧ d = joinPath (joinPath (b.getD ORGANIZED_FOLDERS_DIR) st) fn
    ∧ (∀ (fs3 : FS) (q : Path), fs3.lookup q = none → q.dropLast ≠ SIGNED_DIR →
        ((check_unsigned_folder_for_updates fs3).1).lookup q = none) := by
  obtain ⟨rp, hres, ha, hfn, hd, hfs2⟩ := organize_moved_inv fs p b fs2 d st fn h
  refine ⟨classify_fields_range, ?_, ?_, ?_⟩
  · obtain ⟨fields, hlk, hstc⟩ := analyze_ok_lookup fs rp st ha
    rw [hstc]
    exact classify_fields_range fields
  · rw [hd, hfn]
  · intro fs3 q hq hqd
    have hnotin : q ∉ fs3.glob UNSIGNED_DIR := fun hmem =>
      ((FS.mem_glob fs3 UNSIGNED_DIR q).mp hmem).1 hq
    have hpres := reconcileLoop_fst_untouched q hqd (fs3.glob UNSIGNED_DIR) fs3 hnotin
    unfold check_unsigned_folder_for_updates
    rw [hpres, hq]

/-- Witness for states_closed: the concrete organize call on exFs1. -/
theorem states_closed_witness :
    organize_pdf_by_signature_state exFs1 ["pdf_documents", "doc.pdf"] none
      = (exFs1Moved,
         .moved ["organized_pdfs", "unsigned_fields", "doc.pdf"] "unsigned_fields" "doc.pdf")
    ∧ ("unsigned_fields" = "no_signature_fields" ∨ "unsigned_fields" = "unsigned_fields"
        ∨ "unsigned_fields" = "signed") :=
  ⟨rfl,
   (states_closed exFs1 ["pdf_documents", "doc.pdf"] none exFs1Moved
      ["organized_pdfs", "unsigned_fields", "doc.pdf"] "unsigned_fields" "doc.pdf" rfl).2.1⟩

/-- Claim C10: when the literal path does not exist, both resolving tools
discard the directory component and search the four candidate
directories for the basename alone, then operate on whatever same-named
file is found: the call behaves exactly as if it had been given the
found path. -/
theorem fallback_ignores_directory (fs : FS) (p rp : Path) (b : Option Path)
    (op : Option Path) (w : Bool)
    (h1 : fs.existsPath p = false)
    (h2 : find_file_in_organized_folders fs (basename p) = some rp) :
    resolve fs p = some rp
    ∧ organize_pdf_by_signature_state fs p b = organize_pdf_by_signature_state fs rp b
    ∧ add_signature_field fs p op w = add_signature_field fs rp op w := by
  have hre : fs.existsPath rp = true := List.find?_some h2
  have hresp : resolve fs p = some rp := by
    unfold resolve
    rw [h1]
    simp [h2]
  have hresrp : resolve fs rp = some rp := by
    unfold resolve
    rw [hre]
    simp
  refine ⟨hresp, ?_, add_resolve_congr fs p rp rp op w hresp hresrp⟩
  cases ha : analyze_signature_state fs rp with
  | error e =>
    rw [organize_resolve_error fs p b rp e hresp ha,
      organize_resolve_error fs rp b rp e hresrp ha]
  | ok st =>
    rw [organize_resolve_ok fs p b rp st hresp ha,
      organize_resolve_ok fs rp b rp st hresrp ha]

/-- Witness for fallback_ignores_directory: a nonexistent path in an
arbitrary directory resolves to the intake copy of doc.pdf. -/
theorem fallback_ignores_directory_witness :
    exFs1.existsPath ["somewhere", "doc.pdf"] = false
    ∧ find_file_in_organized_folders exFs1 (basename ["somewhere", "doc.pdf"])
        = some ["pdf_documents", "doc.pdf"]
    ∧ organize_pdf_by_signature_state exFs1 ["somewhere", "doc.pdf"] none
        = organize_pdf_by_signature_state exFs1 ["pdf_documents", "doc.pdf"] none :=
  ⟨rfl, rfl,
   (fallback_ignores_directory exFs1 ["somewhere", "doc.pdf"] ["pdf_documents", "doc.pdf"]
      none none true rfl rfl).2.1⟩

/-- Claim C2: on a well-formed filesystem, a completed reconciliation
pass followed by a second pass with no intervening external change
promotes nothing the second time: every file promoted by the first pass
is gone from the unsigned_fields folder, and every still-pending file
classifies exactly as before. -/
theorem reconcile_idempotent (fs fs2 : FS) (mv rem : List String)
    (hwf : fs.Wf)
    (h : check_unsigned_folder_for_updates fs = (fs2, .ok (mv, rem))) :
    (∃ rem2, check_unsigned_folder_for_updates fs2 = (fs2, .ok ([], rem2)))
    ∧ (∀ fn ∈ mv, fs2.existsPath (joinPath UNSIGNED_DIR fn) = false)
    ∧ (∀ q ∈ fs.glob UNSIGNED_DIR, analyze_signature_state fs q ≠ .ok "signed" →
        analyze_signature_state fs2 q = analyze_signature_state fs q) := by
  have hdir : ∀ q ∈ fs.glob UNSIGNED_DIR, q.dropLast = UNSIGNED_DIR :=
    fun q hq => ((FS.mem_glob fs UNSIGNED_DIR q).mp hq).2.1
  have hnd : (fs.glob UNSIGNED_DIR).Nodup := FS.glob_nodup fs UNSIGNED_DIR hwf
  obtain ⟨s1, s2, s3, s4, s5, s6⟩ :=
    reconcileLoop_ok_spec (fs.glob UNSIGNED_DIR) fs fs2 mv rem hdir hnd h
  have hnotsig : ∀ q ∈ fs.glob UNSIGNED_DIR, analyze_signature_state fs q ≠ .ok "signed" →
      isSignedAt fs q = false := by
    intro q hq hne
    cases hb : isSignedAt fs q
    · rfl
    · exact absurd ((isSignedAt_true_iff fs q).mp hb) hne
  have hpend : ∀ q ∈ fs.glob UNSIGNED_DIR, analyze_signature_state fs q ≠ .ok "signed" →
      analyze_signature_state fs2 q = analyze_signature_state fs q := by
    intro q hq hne
    exact analyze_congr fs2 fs q q (s6 q hq (hnotsig q hq hne))
  refine ⟨?_, ?_, hpend⟩
  · refine ⟨(fs2.glob UNSIGNED_DIR).map basename, ?_⟩
    unfold check_unsigned_folder_for_updates
    apply reconcileLoop_all_pending
    intro q hq
    obtain ⟨hqlk, hqd, hqext⟩ := (FS.mem_glob fs2 UNSIGNED_DIR q).mp hq
    by_cases hqmem : q ∈ fs.glob UNSIGNED_DIR
    · by_cases hqsig : isSignedAt fs q = true
      · exact absurd (s5 q hqmem hqsig) hqlk
      · have hb : isSignedAt fs q = false := by
          cases hb2 : isSignedAt fs q
          · rfl
          · exact absurd hb2 hqsig
        obtain ⟨st, hst⟩ := s1 q hqmem
        have hstne : st ≠ "signed" := by
          intro hh
          subst hh
          exact absurd ((isSignedAt_true_iff fs q).mpr hst) (by rw [hb]; simp)
        refine ⟨st, ?_, hstne⟩
        rw [analyze_congr fs2 fs q q (s6 q hqmem hb)]
        exact hst
    · exfalso
      apply hqmem
      rw [FS.mem_glob]
      exact ⟨by rw [← s4 q hqd hqmem]; exact hqlk, hqd, hqext⟩
  · intro fn hfn
    rw [s2] at hfn
    obtain ⟨q, hqmem2, hqbn⟩ := List.mem_map.mp hfn
    obtain ⟨hqglob, hqsig⟩ := List.mem_filter.mp hqmem2
    have hqd : q.dropLast = UNSIGNED_DIR := hdir q hqglob
    have hqne : q ≠ [] := by
      intro hnil
      rw [hnil] at hqd
      exact (by decide : ¬ (([] : Path).dropLast = UNSIGNED_DIR)) hqd
    have hqeq : q = joinPath UNSIGNED_DIR (basename q) :=
      path_eq_joinPath UNSIGNED_DIR q hqd hqne
    rw [← hqbn, ← hqeq, FS.existsPath, s5 q hqglob hqsig]
    rfl

/-- Witness for reconcile_idempotent: the two-file unsigned folder of
exFsRec, whose first pass promotes a.pdf and leaves b.pdf pending. -/
theorem reconcile_idempotent_witness :
    exFsRec.Wf
    ∧ check_unsigned_folder_for_updates exFsRec = (exFsRec2, .ok (["a.pdf"], ["b.pdf"]))
    ∧ (∃ rem2, check_unsigned_folder_for_updates exFsRec2 = (exFsRec2, .ok ([], rem2))) :=
  ⟨by decide, rfl,
   (reconcile_idempotent exFsRec exFsRec2 ["a.pdf"] ["b.pdf"] (by decide) rfl).1⟩

end ESign
